/-
  Verification of the parameter-editor / selector-box widget logic
  (`hal4000/qtWidgets/qtParametersBox.py`) and of the mosaic view
  (`storm_control/steve/mosaicView.py`) from the storm-control repository.

  The Python classes are shallowly embedded as Lean structures with
  explicit state passing; Qt signal emissions are returned as lists of
  signal values.  Parameter values are an arbitrary type `V` with
  decidable equality (the Python code only ever compares them with `!=`).
  A parameter tree (the external `sc_library.parameters` object, offering
  `get`/`setv` by dotted path and `copy.deepcopy`) is embedded as a total
  function from paths (strings) to values; `setv` is a pointwise function
  update and `deepcopy` is the value itself, since the embedding is pure
  and the aliasing structure of the Python object graph is made explicit
  by the fields of the editor state.
-/
import Mathlib

namespace StormControl

/-! ### ParametersEditor (qtParametersBox.py, class ParametersEditor)

State of the editor dialog.  `editor_widgets` in the source is a
dictionary from full parameter names to editor widgets; each widget
carries one mutable boolean `am_changed`.  We keep the key set as
`widget_names` and the flags as a function from names to `Bool`.
`update_enabled` is the enabled state of `self.ui.updateButton`. -/

structure ParametersEditor (V : Type) where
  widget_names : List String
  am_changed : String → Bool
  n_changed : Int
  original_parameters : String → V
  parameters : String → V
  update_enabled : Bool

/-- The status string returned by `ParametersTableWidget.setChanged`. -/
inductive ChangeStatus
  | modified
  | reverted
  | nochange
deriving DecidableEq

/-- `ParametersTableWidget.setChanged`: given the widget's current
`am_changed` flag and the new `changed` value, returns the status string
and the widget's new `am_changed` flag. -/
def setChanged (am_changed changed : Bool) : ChangeStatus × Bool :=
  if changed ≠ am_changed then
    if changed then (.modified, changed) else (.reverted, changed)
  else (.nochange, am_changed)

/-- `ParametersEditor.enableUpdateButton`. -/
def enableUpdateButton {V : Type} (e : ParametersEditor V) (state : Bool) :
    ParametersEditor V :=
  if state then { e with update_enabled := true }
  else { e with update_enabled := false }

/-- `ParametersEditor.updateDisplay`: enables the update button iff
`self.n_changed != 0`. -/
def updateDisplay {V : Type} (e : ParametersEditor V) : ParametersEditor V :=
  enableUpdateButton e (decide (e.n_changed ≠ 0))

/-- `ParametersEditor.__init__`: the editable snapshot `self.parameters`
is `copy.deepcopy(parameters)`, every widget starts with
`am_changed = False`, `n_changed = 0`, and `updateDisplay()` runs last. -/
def ParametersEditor.init {V : Type} (widget_names : List String)
    (parameters : String → V) : ParametersEditor V :=
  updateDisplay
    { widget_names := widget_names
      am_changed := fun _ => false
      n_changed := 0
      original_parameters := parameters
      parameters := parameters
      update_enabled := false }

/-- `ParametersEditor.getParameters`: returns the original parameters. -/
def ParametersEditor.getParameters {V : Type} (e : ParametersEditor V) :
    String → V :=
  e.original_parameters

/-- `ParametersEditor.handleParameterChanged(pname, pvalue)`:
`self.parameters.setv(pname, pvalue)`, then ask the widget for `pname`
to update its flag from `self.parameters.get(pname) !=
self.original_parameters.get(pname)`, bump `n_changed` by the returned
status, and refresh the display. -/
def handleParameterChanged {V : Type} [DecidableEq V] (e : ParametersEditor V)
    (pname : String) (pvalue : V) : ParametersEditor V :=
  let parameters := Function.update e.parameters pname pvalue
  let changed : Bool := decide (parameters pname ≠ e.original_parameters pname)
  let res := setChanged (e.am_changed pname) changed
  let n_changed : Int :=
    match res.1 with
    | .modified => e.n_changed + 1
    | .reverted => e.n_changed - 1
    | .nochange => e.n_changed
  updateDisplay
    { e with parameters := parameters
             am_changed := Function.update e.am_changed pname res.2
             n_changed := n_changed }

/-- The signal emitted by `ParametersEditor.handleUpdate`. -/
inductive EditorSignal
  | updateClicked
deriving DecidableEq

/-- `ParametersEditor.handleUpdate`: calls `resetChanged()` on every
widget in `editor_widgets` (setting its `am_changed` to `False`),
replaces `self.original_parameters` with `copy.deepcopy(self.parameters)`,
sets `n_changed = 0` and emits `updateClicked` once.  It does NOT call
`updateDisplay`, so `update_enabled` is untouched. -/
def handleUpdate {V : Type} (e : ParametersEditor V) :
    ParametersEditor V × List EditorSignal :=
  ({ e with am_changed := fun p => if p ∈ e.widget_names then false else e.am_changed p
            original_parameters := e.parameters
            n_changed := 0 },
   [.updateClicked])

/-- The events the editor dialog reacts to: a `parameterChanged` signal
from the widget for path `pname` (only widgets in `editor_widgets` emit
it), or a click on the update button. -/
inductive EditorEvent (V : Type)
  | paramChanged (pname : String) (pvalue : V)
  | update

def EditorEvent.isUpdate {V : Type} : EditorEvent V → Bool
  | .paramChanged _ _ => false
  | .update => true

/-- An event is valid when it can actually occur: `parameterChanged`
signals only come from the widgets stored in `editor_widgets`. -/
def validEvent {V : Type} (names : List String) : EditorEvent V → Bool
  | .paramChanged p _ => decide (p ∈ names)
  | .update => true

def applyEvent {V : Type} [DecidableEq V] (e : ParametersEditor V) :
    EditorEvent V → ParametersEditor V
  | .paramChanged p v => handleParameterChanged e p v
  | .update => (handleUpdate e).1

def runEvents {V : Type} [DecidableEq V] (e : ParametersEditor V)
    (events : List (EditorEvent V)) : ParametersEditor V :=
  events.foldl applyEvent e

/-- The number of widget paths at which the editable snapshot differs
from the original parameters. -/
def countChanged {V : Type} [DecidableEq V] (e : ParametersEditor V) : Nat :=
  e.widget_names.countP fun p => decide (e.parameters p ≠ e.original_parameters p)

/-- The state invariant of the editor: each widget flag mirrors whether
its path differs between snapshot and original, paths without a widget
never differ, `n_changed` is the number of differing widget paths, and
the widget keys are distinct (they are dictionary keys in the source). -/
def EditorInv {V : Type} [DecidableEq V] (e : ParametersEditor V) : Prop :=
  e.widget_names.Nodup ∧
  (∀ p, e.am_changed p = decide (e.parameters p ≠ e.original_parameters p)) ∧
  (∀ p, p ∉ e.widget_names → e.parameters p = e.original_parameters p) ∧
  e.n_changed = (countChanged e : Int)

/-! ### Path helpers (os.path as used by the two files)

`getFileName` in qtParametersBox.py is
`os.path.splitext(os.path.basename(path))[0]`, and mosaicView.py uses
`os.path.splitext(filename)[1]`.  Embedded here for POSIX paths. -/

/-- `os.path.basename`: the final path component, after the last `/`. -/
def basename (p : String) : String :=
  String.mk ((p.data.reverse.takeWhile fun c => c ≠ '/').reverse)

/-- `os.path.splitext(p)[1]`: the extension, i.e. the suffix of the final
path component starting at its last dot — except that leading dots of the
component do not start an extension (`.bashrc` has extension `""`). -/
def splitextExt (p : String) : String :=
  let base := (basename p).data
  let stripped := base.dropWhile fun c => c = '.'
  if stripped.contains '.' then
    String.mk ('.' :: (stripped.reverse.takeWhile fun c => c ≠ '.').reverse)
  else ""

/-- `os.path.splitext(p)[0]`: the path with `splitextExt p` removed. -/
def splitextRoot (p : String) : String :=
  String.mk (p.data.take (p.data.length - (splitextExt p).data.length))

/-- `getFileName` from qtParametersBox.py. -/
def getFileName (path : String) : String :=
  splitextRoot (basename path)

/-! ### QParametersBox and ParametersRadioButton (qtParametersBox.py)

The box stores a list of radio buttons, each bound to a parameters
object.  The box never looks inside a parameters object except for
`parameters.get("parameters_file")` (to name the button), so parameter
trees are embedded as a `parameters_file` string plus an opaque payload
distinguishing distinct trees. -/

structure ParamsFile where
  parameters_file : String
  payload : Nat
deriving DecidableEq

/-- `ParametersRadioButton`: its label text is
`getFileName(parameters.get("parameters_file"))`; `bid` stands for the
Python object identity of the button (buttons are compared with `==`,
which is identity for QWidgets).  The editor dialog, the
`changed`/`delete_desired` flags and the context-menu actions play no
role in the claims below and are omitted. -/
structure ParametersRadioButton where
  bid : Nat
  text : String
  checked : Bool
  parameters : ParamsFile
deriving DecidableEq

/-- The `settingsToggled` signal of `QParametersBox`. -/
inductive BoxSignal
  | settingsToggled
deriving DecidableEq

/-- `QParametersBox` state: `current_button` is initialized to `False`
in the source (never equal to any button), embedded as `none`. -/
structure QParametersBox where
  current_parameters : Option ParamsFile
  current_button : Option Nat
  radio_buttons : List ParametersRadioButton
deriving DecidableEq

/-- `QParametersBox.__init__`. -/
def QParametersBox.init : QParametersBox :=
  { current_parameters := none, current_button := none, radio_buttons := [] }

/-- One iteration of the loop in `QParametersBox.toggleParameters`: if
the button is checked and is not `self.current_button`, make it current
and emit `settings_toggled`.  (The loop also calls
`button.enableEditor()`, which only touches the button's own editor
dialog — see `enableUpdateButton` above — and does not change the box
state.) -/
def toggleStep (acc : QParametersBox × List BoxSignal)
    (btn : ParametersRadioButton) : QParametersBox × List BoxSignal :=
  if btn.checked ∧ some btn.bid ≠ acc.1.current_button then
    ({ acc.1 with current_button := some btn.bid
                  current_parameters := some btn.parameters },
     acc.2 ++ [BoxSignal.settingsToggled])
  else acc

/-- `QParametersBox.toggleParameters`: iterate over `self.radio_buttons`. -/
def toggleParameters (box : QParametersBox) : QParametersBox × List BoxSignal :=
  box.radio_buttons.foldl toggleStep (box, [])

def uncheckAll (l : List ParametersRadioButton) : List ParametersRadioButton :=
  l.map fun b => { b with checked := false }

/-- Qt auto-exclusive radio-button semantics: after a click on the
button at position `i`, that button is checked and every sibling is
unchecked. -/
def checkOnly : Nat → List ParametersRadioButton → List ParametersRadioButton
  | _, [] => []
  | 0, b :: bs => { b with checked := true } :: uncheckAll bs
  | Nat.succ i, b :: bs => { b with checked := false } :: checkOnly i bs

/-- `radio_button.click()` on the button at position `i`: Qt checks the
button (unchecking its siblings) and emits `clicked`, which the box
connects to `toggleParameters`. -/
def clickButton (box : QParametersBox) (i : Nat) :
    QParametersBox × List BoxSignal :=
  toggleParameters { box with radio_buttons := checkOnly i box.radio_buttons }

/-- `QParametersBox.addParameters`: sets `current_parameters`
unconditionally, appends a new radio button (labelled from the
parameters file name), and clicks it iff it is the only button.
`newId` is the identity of the freshly constructed button. -/
def addParameters (box : QParametersBox) (ps : ParamsFile) (newId : Nat) :
    QParametersBox × List BoxSignal :=
  let btn : ParametersRadioButton :=
    { bid := newId, text := getFileName ps.parameters_file,
      checked := false, parameters := ps }
  let box' := { box with current_parameters := some ps
                         radio_buttons := box.radio_buttons ++ [btn] }
  if box'.radio_buttons.length = 1 then clickButton box' 0 else (box', [])

/-- `QParametersBox.getCurrentParameters`. -/
def getCurrentParameters (box : QParametersBox) : Option ParamsFile :=
  box.current_parameters

/-- `QParametersBox.getButtonNames`. -/
def getButtonNames (box : QParametersBox) : List String :=
  box.radio_buttons.map (·.text)

/-- The `param_index` argument of the lookup methods: a Python string or
int. -/
inductive ParamIndex
  | byName (s : String)
  | byPos (n : Int)

/-- `QParametersBox.getIndexOfParameters`: a string is looked up in the
button names (`param_index in button_names`; a string is never an
element of `range(...)`); an int is never equal to a name, and is
returned as-is when it lies in `range(len(button_names))`; otherwise
`-1`. -/
def getIndexOfParameters (box : QParametersBox) : ParamIndex → Int
  | .byName s =>
      let button_names := getButtonNames box
      if s ∈ button_names then (button_names.indexOf s : Int) else -1
  | .byPos n =>
      if 0 ≤ n ∧ n < (getButtonNames box).length then n else -1

/-- `QParametersBox.setCurrentParameters`: returns the new box state,
the emitted signals, and the Python return value.  When the index lookup
fails the source prints a message (no state effect) and returns `True`;
when the looked-up button is `self.current_button` it returns `True`;
otherwise it clicks the button and returns `False`.  The `none` arm of
the match is unreachable: a lookup result other than `-1` is a valid
position (`getIndexOfParameters_valid` below). -/
def setCurrentParameters (box : QParametersBox) (pi : ParamIndex) :
    QParametersBox × (List BoxSignal × Bool) :=
  let index := getIndexOfParameters box pi
  if index ≠ -1 then
    match box.radio_buttons.get? index.toNat with
    | some btn =>
        if some btn.bid = box.current_button then (box, ([], true))
        else
          let r := clickButton box index.toNat
          (r.1, (r.2, false))
    | none => (box, ([], true))
  else (box, ([], true))

/-! ### Crosshair and MosaicView (storm_control/steve/mosaicView.py)

The numeric state (`ch_size`, `r_size`, `view_scale`, the zoom factors)
is Python floats in the source; it is embedded over `ℚ`, which is exact
for every value these claims evaluate.  `zoom_out = 1.0/zoom_in` becomes
the exact reciprocal `5/6`. -/

/-- Python's `round`: nearest integer, ties to even. -/
def pyRound (q : ℚ) : Int :=
  let f : Int := Int.fdiv q.num q.den
  let r : ℚ := q - (f : ℚ)
  if r < 1/2 then f
  else if 1/2 < r then f + 1
  else if f % 2 = 0 then f else f + 1

structure Crosshair where
  ch_size : ℚ
  r_size : ℚ
  visible : Bool
deriving DecidableEq

/-- `Crosshair.__init__`. -/
def Crosshair.init : Crosshair :=
  { ch_size := 15, r_size := 15, visible := false }

/-- The painter calls issued by `Crosshair.paint`. -/
inductive DrawCmd
  | setPen (r g b : Int)
  | drawLine (x1 y1 x2 y2 : ℚ)
  | drawEllipse (x y w h : ℚ)
deriving DecidableEq

/-- `Crosshair.paint`: draws the pen, the two lines and the ellipse only
when `self.visible` is set; otherwise nothing. -/
def Crosshair.paint (c : Crosshair) : List DrawCmd :=
  if c.visible then
    [ .setPen 0 0 255,
      .drawLine (-c.r_size) 0 c.r_size 0,
      .drawLine 0 (-c.r_size) 0 c.r_size,
      .drawEllipse (-(1/2 : ℚ) * c.r_size) (-(1/2 : ℚ) * c.r_size)
        c.r_size c.r_size ]
  else []

/-- `Crosshair.setScale`: `self.r_size = round(self.ch_size/scale)`. -/
def Crosshair.setScale (c : Crosshair) (scale : ℚ) : Crosshair :=
  { c with r_size := (pyRound (c.ch_size / scale) : ℚ) }

/-- `Crosshair.setVisible`. -/
def Crosshair.setVisible (c : Crosshair) (is_visible : Bool) : Crosshair :=
  if is_visible then { c with visible := true } else { c with visible := false }

/-- The `scaleChange` signal of `MosaicView`. -/
inductive ViewSignal
  | scaleChange (s : ℚ)
deriving DecidableEq

/-- `MosaicView` state together with the crosshair item the hosting
application installs on it (`self.cross_hair`, used by
`setCrosshairPosition`/`showCrosshair`). -/
structure MosaicView where
  view_scale : ℚ
  zoom_in : ℚ
  zoom_out : ℚ
  cross_hair : Crosshair
deriving DecidableEq

/-- `MosaicView.__init__` (with the crosshair in its initial state). -/
def MosaicView.init : MosaicView :=
  { view_scale := 1, zoom_in := 6/5, zoom_out := 5/6,
    cross_hair := Crosshair.init }

/-- `MosaicView.wheelEvent` for a wheel input with angle delta
`(dx, dy)`: when the delta is not null, multiply `view_scale` by
`zoom_in` if `dy > 0` and by `zoom_out` otherwise, apply the new
transform (`setScale`, not observable here) and emit `scaleChange`.  The
line rescaling the crosshair (`self.cross_hair.setScale(...)`) is
commented out in the source, so `cross_hair` is untouched. -/
def MosaicView.wheelEvent (m : MosaicView) (dx dy : Int) :
    MosaicView × List ViewSignal :=
  if ¬(dx = 0 ∧ dy = 0) then
    if 0 < dy then
      let s := m.view_scale * m.zoom_in
      ({ m with view_scale := s }, [.scaleChange s])
    else
      let s := m.view_scale * m.zoom_out
      ({ m with view_scale := s }, [.scaleChange s])
  else (m, [])

/-- Outcome of `MosaicView.dropEvent`. -/
inductive DropResult
  | emitted (filenames : List String)
  | rejected
deriving DecidableEq

/-- Python string comparison: lexicographic on Unicode code points. -/
def strLeb : List Char → List Char → Bool
  | [], _ => true
  | _ :: _, [] => false
  | a :: as, b :: bs =>
      if a.toNat < b.toNat then true
      else if a.toNat = b.toNat then strLeb as bs
      else false

def pyInsert (x : String) : List String → List String
  | [] => [x]
  | y :: ys => if strLeb x.data y.data then x :: y :: ys else y :: pyInsert x ys

/-- Python `sorted` on strings: a stable ascending sort, embedded as
insertion sort over `strLeb`. -/
def pySorted : List String → List String
  | [] => []
  | x :: xs => pyInsert x (pySorted xs)

/-- `MosaicView.dropEvent`, taking the local-file paths of the dropped
URLs.  The names are sorted ascending, the extension of the first is
compared against all, and either the sorted list is emitted once or the
handler takes the reject branch — which in the source calls
`QtGui.QMessageBox.information` and returns without emitting — embedded
as `rejected`.  An empty drop indexes `filenames[0]` out of range
(`IndexError`), embedded as `none`. -/
def dropEvent (urls : List String) : Option DropResult :=
  let filenames := pySorted urls
  match filenames with
  | [] => none
  | first :: _ =>
      let firstType := splitextExt first
      if filenames.all (fun f => splitextExt f == firstType) then
        some (.emitted filenames)
      else some .rejected

/-! ### Concrete fixtures used by witnesses -/

/-- A small editor over integer-valued parameters, as built by
`ParametersEditor.__init__` for two mutable parameters. -/
def sampleEditor : ParametersEditor Int :=
  ParametersEditor.init ["camera1.exposure_time", "film.directory"] fun _ => 0

/-- A parameters box holding two parameter files; the first button is
the selected one (it was clicked when added), while `addParameters`
already overwrote `current_parameters` with the second tree. -/
def sampleBox : QParametersBox :=
  (addParameters (addParameters QParametersBox.init ⟨"p1.xml", 1⟩ 0).1
    ⟨"p2.xml", 2⟩ 1).1

/-! ### Helper lemmas on the editor -/

theorem setChanged_snd (a c : Bool) : (setChanged a c).2 = c := by
  cases a <;> cases c <;> rfl

theorem enableUpdateButton_eq {V : Type} (e : ParametersEditor V) (s : Bool) :
    enableUpdateButton e s = { e with update_enabled := s } := by
  cases s <;> rfl

theorem updateDisplay_eq {V : Type} (e : ParametersEditor V) :
    updateDisplay e = { e with update_enabled := decide (e.n_changed ≠ 0) } := by
  rw [updateDisplay, enableUpdateButton_eq]

theorem handleParameterChanged_eq {V : Type} [DecidableEq V]
    (e : ParametersEditor V) (p : String) (v : V) :
    handleParameterChanged e p v =
      { e with
          parameters := Function.update e.parameters p v
          am_changed :=
            Function.update e.am_changed p (decide (v ≠ e.original_parameters p))
          n_changed := e.n_changed +
            (if decide (v ≠ e.original_parameters p) = e.am_changed p then 0
             else if v ≠ e.original_parameters p then 1 else -1)
          update_enabled := decide (e.n_changed +
            (if decide (v ≠ e.original_parameters p) = e.am_changed p then 0
             else if v ≠ e.original_parameters p then 1 else -1) ≠ 0) } := by
  rw [handleParameterChanged, updateDisplay_eq]
  simp only [Function.update_same]
  by_cases h : v = e.original_parameters p <;>
    rcases ham : e.am_changed p with _ | _ <;>
      simp [h, ham, setChanged, sub_eq_add_neg]

theorem hpc_widget_names {V : Type} [DecidableEq V] (e : ParametersEditor V)
    (p : String) (v : V) :
    (handleParameterChanged e p v).widget_names = e.widget_names := by
  rw [handleParameterChanged_eq]

theorem hpc_original {V : Type} [DecidableEq V] (e : ParametersEditor V)
    (p : String) (v : V) :
    (handleParameterChanged e p v).original_parameters = e.original_parameters := by
  rw [handleParameterChanged_eq]

theorem hpc_parameters {V : Type} [DecidableEq V] (e : ParametersEditor V)
    (p : String) (v : V) :
    (handleParameterChanged e p v).parameters = Function.update e.parameters p v := by
  rw [handleParameterChanged_eq]

theorem hpc_am_changed {V : Type} [DecidableEq V] (e : ParametersEditor V)
    (p : String) (v : V) :
    (handleParameterChanged e p v).am_changed =
      Function.update e.am_changed p (decide (v ≠ e.original_parameters p)) := by
  rw [handleParameterChanged_eq]

theorem hpc_n_changed {V : Type} [DecidableEq V] (e : ParametersEditor V)
    (p : String) (v : V) :
    (handleParameterChanged e p v).n_changed =
      e.n_changed +
        (if decide (v ≠ e.original_parameters p) = e.am_changed p then 0
         else if v ≠ e.original_parameters p then 1 else -1) := by
  rw [handleParameterChanged_eq]

theorem hpc_update_enabled {V : Type} [DecidableEq V] (e : ParametersEditor V)
    (p : String) (v : V) :
    (handleParameterChanged e p v).update_enabled =
      decide ((handleParameterChanged e p v).n_changed ≠ 0) := by
  rw [handleParameterChanged_eq]

/-- Changing the value of a predicate at one element of a duplicate-free
list shifts its `countP` by the difference of the old and new values at
that element. -/
theorem countP_pointUpdate (l : List String) (hnd : l.Nodup) (a : String)
    (ha : a ∈ l) (f : String → Bool) (b : Bool) :
    ((l.countP fun x => if x = a then b else f x) : Int)
      = (l.countP f : Int) + (if b then 1 else 0) - (if f a then 1 else 0) := by
  induction l with
  | nil => simp at ha
  | cons x xs ih =>
    rw [List.countP_cons, List.countP_cons]
    rcases List.mem_cons.mp ha with h | h
    · subst h
      have hax : a ∉ xs := (List.nodup_cons.mp hnd).1
      have hcong : (xs.countP fun y => if y = a then b else f y) = xs.countP f := by
        apply List.countP_congr
        intro y hy
        have hya : y ≠ a := fun hh => hax (hh ▸ hy)
        simp [hya]
      rw [hcong]
      cases b <;> rcases hfa : f a with _ | _ <;> simp [hfa]
    · have hxa : x ≠ a := by
        rintro rfl
        exact (List.nodup_cons.mp hnd).1 h
      have ih2 := ih (List.nodup_cons.mp hnd).2 h
      simp only [hxa, ite_false, if_false] at ih2 ⊢
      generalize xs.countP (fun y => if y = a then b else f y) = A at ih2 ⊢
      generalize xs.countP f = B at ih2 ⊢
      rcases hfx : f x with _ | _ <;> cases b <;> rcases hfa : f a with _ | _ <;>
        simp [hfx, hfa] at ih2 ⊢ <;> omega

theorem editorInv_paramChanged {V : Type} [DecidableEq V]
    {e : ParametersEditor V} (hInv : EditorInv e) {p : String}
    (hp : p ∈ e.widget_names) (v : V) :
    EditorInv (handleParameterChanged e p v) := by
  obtain ⟨hnd, hflag, hout, hcount⟩ := hInv
  refine ⟨?_, ?_, ?_, ?_⟩
  · rw [hpc_widget_names]
    exact hnd
  · intro q
    rw [hpc_am_changed, hpc_parameters, hpc_original]
    by_cases hq : q = p
    · subst hq
      simp [Function.update_same]
    · rw [Function.update_noteq hq, Function.update_noteq hq]
      exact hflag q
  · intro q hq
    rw [hpc_widget_names] at hq
    rw [hpc_parameters, hpc_original]
    have hqp : q ≠ p := fun h => hq (h ▸ hp)
    rw [Function.update_noteq hqp]
    exact hout q hq
  · rw [hpc_n_changed, hcount]
    unfold countChanged
    rw [hpc_widget_names, hpc_parameters, hpc_original]
    have hpred : (fun q => decide (Function.update e.parameters p v q ≠ e.original_parameters q))
        = fun q => if q = p then decide (v ≠ e.original_parameters p)
                   else decide (e.parameters q ≠ e.original_parameters q) := by
      funext q
      by_cases hq : q = p
      · subst hq
        simp [Function.update_same]
      · rw [Function.update_noteq hq]
        simp [hq]
    rw [hpred, countP_pointUpdate _ hnd _ hp, hflag p]
    by_cases h1 : v = e.original_parameters p <;>
      by_cases h2 : e.parameters p = e.original_parameters p <;>
        simp [h1, h2] <;> omega

theorem editorInv_update {V : Type} [DecidableEq V]
    {e : ParametersEditor V} (hInv : EditorInv e) :
    EditorInv (handleUpdate e).1 := by
  obtain ⟨hnd, hflag, hout, hcount⟩ := hInv
  refine ⟨hnd, ?_, ?_, ?_⟩
  · intro q
    show (if q ∈ e.widget_names then false else e.am_changed q)
        = decide (e.parameters q ≠ e.parameters q)
    by_cases hq : q ∈ e.widget_names
    · simp [hq]
    · simp [hq, hflag q, hout q hq]
  · intro q _
    rfl
  · show (0 : Int) = _
    unfold countChanged
    simp [handleUpdate]

theorem widget_names_applyEvent {V : Type} [DecidableEq V]
    (e : ParametersEditor V) (ev : EditorEvent V) :
    (applyEvent e ev).widget_names = e.widget_names := by
  cases ev with
  | paramChanged p v => exact hpc_widget_names e p v
  | update => rfl

theorem editorInv_runEvents {V : Type} [DecidableEq V]
    {e : ParametersEditor V} (hInv : EditorInv e)
    (events : List (EditorEvent V))
    (hv : events.all (validEvent e.widget_names) = true) :
    EditorInv (runEvents e events) := by
  induction events generalizing e with
  | nil => exact hInv
  | cons ev evs ih =>
    rw [List.all_cons, Bool.and_eq_true] at hv
    show EditorInv (runEvents (applyEvent e ev) evs)
    apply ih
    · cases ev with
      | paramChanged p v =>
          exact editorInv_paramChanged hInv
            (by simpa [validEvent] using hv.1) v
      | update => exact editorInv_update hInv
    · rw [widget_names_applyEvent]
      exact hv.2

theorem editorInv_init {V : Type} [DecidableEq V] (names : List String)
    (hnd : names.Nodup) (tree : String → V) :
    EditorInv (ParametersEditor.init names tree) := by
  rw [ParametersEditor.init, updateDisplay_eq]
  refine ⟨hnd, fun p => by simp, fun p _ => rfl, ?_⟩
  unfold countChanged
  simp

theorem original_runEvents_no_update {V : Type} [DecidableEq V]
    (e : ParametersEditor V) (events : List (EditorEvent V))
    (hnu : (events.all fun ev => ! ev.isUpdate) = true) :
    (runEvents e events).original_parameters = e.original_parameters := by
  induction events generalizing e with
  | nil => rfl
  | cons ev evs ih =>
    rw [List.all_cons, Bool.and_eq_true] at hnu
    show (runEvents (applyEvent e ev) evs).original_parameters = _
    rw [ih _ hnu.2]
    cases ev with
    | paramChanged p v => exact hpc_original e p v
    | update => simp [EditorEvent.isUpdate] at hnu

theorem display_runEvents_no_update {V : Type} [DecidableEq V]
    (e : ParametersEditor V)
    (hd : e.update_enabled = decide (e.n_changed ≠ 0))
    (events : List (EditorEvent V))
    (hnu : (events.all fun ev => ! ev.isUpdate) = true) :
    (runEvents e events).update_enabled
      = decide ((runEvents e events).n_changed ≠ 0) := by
  induction events generalizing e with
  | nil => exact hd
  | cons ev evs ih =>
    rw [List.all_cons, Bool.and_eq_true] at hnu
    show (runEvents (applyEvent e ev) evs).update_enabled = _
    apply ih
    · cases ev with
      | paramChanged p v => exact hpc_update_enabled e p v
      | update => simp [EditorEvent.isUpdate] at hnu
    · exact hnu.2

/-! ### Claims C1 – C5 (ParametersEditor) -/

/-- C1: at every reachable state of the parameters editor — i.e. after
any sequence of parameter-change events (coming from the editor's
widgets) and update-button activations, starting from a freshly opened
editor — the change counter `n_changed` equals the exact number of
parameter paths whose value in the editable snapshot differs from the
corresponding value in the last-committed original tree, and is
therefore never negative. -/
theorem n_changed_counts_diffs {V : Type} [DecidableEq V]
    (names : List String) (tree : String → V)
    (events : List (EditorEvent V)) (hnd : names.Nodup)
    (hv : (events.all (validEvent names)) = true) :
    (runEvents (ParametersEditor.init names tree) events).n_changed
        = (countChanged (runEvents (ParametersEditor.init names tree) events) : Int) ∧
    0 ≤ (runEvents (ParametersEditor.init names tree) events).n_changed := by
  have hInv := editorInv_runEvents (editorInv_init names hnd tree) events hv
  refine ⟨hInv.2.2.2, ?_⟩
  rw [hInv.2.2.2]
  exact Int.natCast_nonneg _

/-- Witness for C1: a two-parameter editor receiving an edit to each
parameter and then a revert of the first; the counter ends at the
number of differing paths (one). -/
theorem n_changed_counts_diffs_witness :
    (runEvents (ParametersEditor.init
        ["camera1.exposure_time", "film.directory"] fun _ => (0 : Int))
        [.paramChanged "camera1.exposure_time" 5,
         .paramChanged "film.directory" 7,
         .paramChanged "camera1.exposure_time" 0]).n_changed
        = (countChanged (runEvents (ParametersEditor.init
            ["camera1.exposure_time", "film.directory"] fun _ => (0 : Int))
            [.paramChanged "camera1.exposure_time" 5,
             .paramChanged "film.directory" 7,
             .paramChanged "camera1.exposure_time" 0]) : Int) ∧
    0 ≤ (runEvents (ParametersEditor.init
        ["camera1.exposure_time", "film.directory"] fun _ => (0 : Int))
        [.paramChanged "camera1.exposure_time" 5,
         .paramChanged "film.directory" 7,
         .paramChanged "camera1.exposure_time" 0]).n_changed :=
  n_changed_counts_diffs _ _ _ (by decide) (by decide)

/-- C2: a single change event for path `p` adjusts the change counter by
at most 1 in absolute value: +1 when `p` goes from equal-to-original to
different, −1 when it goes from different back to equal, and 0 otherwise
(in particular a change from one non-original value to another does not
touch the counter, and re-entering the original value when the path
already equals the original leaves it unchanged).  The hypothesis is the
widget-flag consistency that holds at every reachable state
(`editorInv_runEvents`). -/
theorem change_event_delta {V : Type} [DecidableEq V]
    (e : ParametersEditor V) (p : String) (v : V)
    (hp : p ∈ e.widget_names)
    (hflag : e.am_changed p = decide (e.parameters p ≠ e.original_parameters p)) :
    (handleParameterChanged e p v).n_changed =
      e.n_changed +
        (if e.parameters p = e.original_parameters p then
           (if v = e.original_parameters p then 0 else 1)
         else (if v = e.original_parameters p then -1 else 0)) := by
  rw [hpc_n_changed, hflag]
  by_cases h1 : v = e.original_parameters p <;>
    by_cases h2 : e.parameters p = e.original_parameters p <;>
      simp [h1, h2]

/-- Witness for C2: reverting an already-equal parameter to the original
value leaves the counter unchanged (delta 0 branch), at the fresh sample
editor. -/
theorem change_event_delta_witness :
    (handleParameterChanged sampleEditor "camera1.exposure_time" 0).n_changed =
      sampleEditor.n_changed +
        (if sampleEditor.parameters "camera1.exposure_time"
              = sampleEditor.original_parameters "camera1.exposure_time" then
           (if (0 : Int) = sampleEditor.original_parameters "camera1.exposure_time"
            then 0 else 1)
         else (if (0 : Int) = sampleEditor.original_parameters "camera1.exposure_time"
            then -1 else 0)) :=
  change_event_delta sampleEditor "camera1.exposure_time" 0 (by decide) (by decide)

/-- C4: activating the update button (a) clears the per-row changed flag
of every editor widget, (b) replaces the original tree with a deep copy
of the snapshot, so that afterwards original and snapshot agree
value-for-value at every path, (c) resets the change counter to exactly
0, and (d) emits exactly one `updateClicked` notification. -/
theorem handleUpdate_effects {V : Type} [DecidableEq V]
    (e : ParametersEditor V) :
    (∀ p, p ∈ e.widget_names → (handleUpdate e).1.am_changed p = false) ∧
    (∀ p, (handleUpdate e).1.original_parameters p = (handleUpdate e).1.parameters p) ∧
    (handleUpdate e).1.n_changed = 0 ∧
    (handleUpdate e).2 = [EditorSignal.updateClicked] := by
  refine ⟨fun p hp => ?_, fun p => rfl, rfl, rfl⟩
  show (if p ∈ e.widget_names then false else e.am_changed p) = false
  simp [hp]

/-- Witness for C4 at the sample editor after one edit. -/
theorem handleUpdate_effects_witness :
    ((handleUpdate (handleParameterChanged sampleEditor
        "camera1.exposure_time" 5)).1.am_changed "camera1.exposure_time" = false) ∧
    (handleUpdate (handleParameterChanged sampleEditor
        "camera1.exposure_time" 5)).1.n_changed = 0 ∧
    (handleUpdate (handleParameterChanged sampleEditor
        "camera1.exposure_time" 5)).2 = [EditorSignal.updateClicked] :=
  let h := handleUpdate_effects (handleParameterChanged sampleEditor
    "camera1.exposure_time" 5)
  ⟨h.1 "camera1.exposure_time" (by decide), h.2.2.1, h.2.2.2⟩

/-- C5: for every sequence of parameter-change events containing no
update activation, the tree returned by `getParameters` (the original
tree) is unchanged value-for-value at every path from the tree supplied
at construction: edits mutate only the deep-copied snapshot. -/
theorem getParameters_frame {V : Type} [DecidableEq V]
    (names : List String) (tree : String → V)
    (events : List (EditorEvent V))
    (hnu : (events.all fun ev => ! ev.isUpdate) = true) :
    ∀ p, (runEvents (ParametersEditor.init names tree) events).getParameters p
      = tree p := by
  intro p
  rw [ParametersEditor.getParameters,
    original_runEvents_no_update _ events hnu]
  rfl

/-- Witness for C5: two edits, no update; the original tree still maps
the edited path to its construction-time value. -/
theorem getParameters_frame_witness :
    (runEvents (ParametersEditor.init
        ["camera1.exposure_time", "film.directory"] fun _ => (0 : Int))
        [.paramChanged "camera1.exposure_time" 5,
         .paramChanged "camera1.exposure_time" 9]).getParameters
        "camera1.exposure_time" = 0 :=
  getParameters_frame ["camera1.exposure_time", "film.directory"]
    (fun _ => (0 : Int))
    [.paramChanged "camera1.exposure_time" 5,
     .paramChanged "camera1.exposure_time" 9]
    (by decide) "camera1.exposure_time"

/-- C3 counterexample: the claim "at every reachable state the update
button is enabled iff `n_changed > 0`" is false.  After one valid edit
followed by an update-button activation — a reachable state — the
counter is back to 0 but the button is still enabled, because
`handleUpdate` never refreshes the display. -/
theorem update_button_counterexample :
    (["a.x"] : List String).Nodup ∧
    ([EditorEvent.paramChanged "a.x" (1 : Int), .update].all
        (validEvent ["a.x"])) = true ∧
    ¬ (((runEvents (ParametersEditor.init ["a.x"] fun _ => (0 : Int))
          [.paramChanged "a.x" 1, .update]).update_enabled = true) ↔
        0 < (runEvents (ParametersEditor.init ["a.x"] fun _ => (0 : Int))
          [.paramChanged "a.x" 1, .update]).n_changed) := by
  refine ⟨by decide, by decide, ?_⟩
  decide

/-- C3 (amended): the equivalence "update button enabled iff
`n_changed > 0`" holds at initialization and after every
parameter-change event, as long as no commit has intervened; the commit
(update) action itself resets the counter to 0 while leaving the
button's enabled state untouched, and a selector radio-button toggle
sets the editor's button state to the radio's checked state via
`enableUpdateButton`, regardless of the counter. -/
theorem update_button_amended {V : Type} [DecidableEq V]
    (names : List String) (tree : String → V)
    (events : List (EditorEvent V)) (hnd : names.Nodup)
    (hv : (events.all (validEvent names)) = true)
    (hnu : (events.all fun ev => ! ev.isUpdate) = true) :
    (((runEvents (ParametersEditor.init names tree) events).update_enabled = true) ↔
        0 < (runEvents (ParametersEditor.init names tree) events).n_changed) ∧
    ((handleUpdate (runEvents (ParametersEditor.init names tree) events)).1.n_changed = 0 ∧
      (handleUpdate (runEvents (ParametersEditor.init names tree) events)).1.update_enabled
        = (runEvents (ParametersEditor.init names tree) events).update_enabled) ∧
    (∀ b, (enableUpdateButton
        (runEvents (ParametersEditor.init names tree) events) b).update_enabled = b) := by
  have hInv := editorInv_runEvents (editorInv_init names hnd tree) events hv
  have hdisp := display_runEvents_no_update (ParametersEditor.init names tree)
    (by rw [ParametersEditor.init, updateDisplay_eq]) events hnu
  refine ⟨?_, ⟨rfl, rfl⟩, fun b => by rw [enableUpdateButton_eq]⟩
  rw [hdisp]
  have hnn : 0 ≤ (runEvents (ParametersEditor.init names tree) events).n_changed := by
    rw [hInv.2.2.2]
    exact Int.natCast_nonneg _
  constructor
  · intro h
    have := of_decide_eq_true h
    omega
  · intro h
    apply decide_eq_true
    omega

/-- Witness for C3 (amended) after a single edit at a one-parameter
editor. -/
theorem update_button_amended_witness :
    (((runEvents (ParametersEditor.init ["a.x"] fun _ => (0 : Int))
          [.paramChanged "a.x" 1]).update_enabled = true) ↔
        0 < (runEvents (ParametersEditor.init ["a.x"] fun _ => (0 : Int))
          [.paramChanged "a.x" 1]).n_changed) ∧
    ((handleUpdate (runEvents (ParametersEditor.init ["a.x"] fun _ => (0 : Int))
          [.paramChanged "a.x" 1])).1.n_changed = 0 ∧
      (handleUpdate (runEvents (ParametersEditor.init ["a.x"] fun _ => (0 : Int))
          [.paramChanged "a.x" 1])).1.update_enabled
        = (runEvents (ParametersEditor.init ["a.x"] fun _ => (0 : Int))
          [.paramChanged "a.x" 1]).update_enabled) ∧
    (∀ b, (enableUpdateButton
        (runEvents (ParametersEditor.init ["a.x"] fun _ => (0 : Int))
          [.paramChanged "a.x" 1]) b).update_enabled = b) :=
  update_button_amended ["a.x"] (fun _ => (0 : Int))
    [.paramChanged "a.x" 1] (by decide) (by decide) (by decide)

/-! ### Helper lemmas on the selector box -/

theorem uncheckAll_unchecked (l : List ParametersRadioButton) :
    ∀ b ∈ uncheckAll l, b.checked = false := by
  intro b hb
  rw [uncheckAll, List.mem_map] at hb
  obtain ⟨a, _, rfl⟩ := hb
  rfl

theorem foldl_toggleStep_unchecked (l : List ParametersRadioButton)
    (h : ∀ b ∈ l, b.checked = false)
    (acc : QParametersBox × List BoxSignal) :
    l.foldl toggleStep acc = acc := by
  induction l generalizing acc with
  | nil => rfl
  | cons b bs ih =>
    rw [List.foldl_cons]
    have hb : toggleStep acc b = acc := by
      simp [toggleStep, h b (List.mem_cons_self b bs)]
    rw [hb]
    exact ih (fun x hx => h x (List.mem_cons_of_mem _ hx)) acc

/-- Folding `toggleParameters`' loop over the buttons after a click at
position `i`: exactly the clicked button is checked; it acts iff it is
not already the current button. -/
theorem foldl_checkOnly (l : List ParametersRadioButton) (i : Nat)
    (hi : i < l.length) (B : QParametersBox) :
    (checkOnly i l).foldl toggleStep (B, []) =
      if some (l.get ⟨i, hi⟩).bid = B.current_button then (B, [])
      else ({ B with current_button := some (l.get ⟨i, hi⟩).bid
                     current_parameters := some (l.get ⟨i, hi⟩).parameters },
            [BoxSignal.settingsToggled]) := by
  induction l generalizing i B with
  | nil => simp at hi
  | cons b bs ih =>
    cases i with
    | zero =>
      show ({ b with checked := true } :: uncheckAll bs).foldl toggleStep (B, []) = _
      rw [List.foldl_cons]
      by_cases hc : some b.bid = B.current_button
      · have h1 : toggleStep (B, []) { b with checked := true } = (B, []) := by
          simp [toggleStep, hc]
        rw [h1, foldl_toggleStep_unchecked _ (uncheckAll_unchecked bs)]
        simp [hc]
      · have h1 : toggleStep (B, []) { b with checked := true }
            = ({ B with current_button := some b.bid
                        current_parameters := some b.parameters },
               [BoxSignal.settingsToggled]) := by
          simp [toggleStep, hc]
        rw [h1]
        have h2 : ∀ x ∈ uncheckAll bs,
            x.checked = false := uncheckAll_unchecked bs
        rw [show (List.foldl toggleStep
              ({ B with current_button := some b.bid
                        current_parameters := some b.parameters },
               [BoxSignal.settingsToggled]) (uncheckAll bs)) = _ from
          foldl_toggleStep_unchecked _ h2 _]
        simp [hc]
    | succ i =>
      show ({ b with checked := false } :: checkOnly i bs).foldl toggleStep (B, []) = _
      rw [List.foldl_cons]
      have h1 : toggleStep (B, []) { b with checked := false } = (B, []) := by
        simp [toggleStep]
      rw [h1]
      exact ih i (Nat.lt_of_succ_lt_succ hi) B

/-! ### Claims C6, C7, C10 (QParametersBox) -/

/-- C6: a selection (click) event on the selector entry that is already
current never publishes the `settings_toggled` notification and leaves
the current tree unchanged, while a selection event on any entry that is
not current publishes it exactly once and makes that entry's tree the
current one. -/
theorem toggle_publish_spec (box : QParametersBox) (i : Nat)
    (hi : i < box.radio_buttons.length) :
    (box.current_button = some (box.radio_buttons.get ⟨i, hi⟩).bid →
        (clickButton box i).2 = [] ∧
        (clickButton box i).1.current_parameters = box.current_parameters ∧
        (clickButton box i).1.current_button = box.current_button) ∧
    (box.current_button ≠ some (box.radio_buttons.get ⟨i, hi⟩).bid →
        (clickButton box i).2 = [BoxSignal.settingsToggled] ∧
        (clickButton box i).1.current_button
          = some (box.radio_buttons.get ⟨i, hi⟩).bid ∧
        (clickButton box i).1.current_parameters
          = some (box.radio_buttons.get ⟨i, hi⟩).parameters) := by
  have key : clickButton box i =
      (checkOnly i box.radio_buttons).foldl toggleStep
        ({ box with radio_buttons := checkOnly i box.radio_buttons }, []) := rfl
  rw [key, foldl_checkOnly box.radio_buttons i hi]
  constructor
  · intro h
    rw [if_pos h.symm]
    exact ⟨rfl, rfl, rfl⟩
  · intro h
    rw [if_neg fun hc => h hc.symm]
    exact ⟨rfl, rfl, rfl⟩

/-- Witness for C6 at the sample box: clicking the already-selected
first button emits nothing; clicking the unselected second button emits
exactly one `settings_toggled` and makes its tree current. -/
theorem toggle_publish_spec_witness :
    ((clickButton sampleBox 0).2 = [] ∧
     (clickButton sampleBox 0).1.current_parameters = sampleBox.current_parameters ∧
     (clickButton sampleBox 0).1.current_button = sampleBox.current_button) ∧
    ((clickButton sampleBox 1).2 = [BoxSignal.settingsToggled] ∧
     (clickButton sampleBox 1).1.current_button
       = some (sampleBox.radio_buttons.get ⟨1, by decide⟩).bid ∧
     (clickButton sampleBox 1).1.current_parameters
       = some (sampleBox.radio_buttons.get ⟨1, by decide⟩).parameters) :=
  ⟨(toggle_publish_spec sampleBox 0 (by decide)).1 (by decide),
   (toggle_publish_spec sampleBox 1 (by decide)).2 (by decide)⟩

/-- C7 counterexample: the claim "the new entry becomes the current one
(as observed via getCurrentParameters and the selected button) iff it is
the first entry; adding to a non-empty list leaves the current selection
unchanged" is false.  Adding a second tree to a one-entry box leaves the
first button selected, yet `getCurrentParameters` now reports the newly
added tree: `addParameters` overwrites `current_parameters`
unconditionally before checking whether the new entry is the first. -/
theorem addParameters_counterexample :
    (getCurrentParameters (addParameters QParametersBox.init
        ⟨"p1.xml", 1⟩ 0).1 = some ⟨"p1.xml", 1⟩) ∧
    (getCurrentParameters (addParameters (addParameters QParametersBox.init
        ⟨"p1.xml", 1⟩ 0).1 ⟨"p2.xml", 2⟩ 1).1 = some ⟨"p2.xml", 2⟩) ∧
    (addParameters (addParameters QParametersBox.init
        ⟨"p1.xml", 1⟩ 0).1 ⟨"p2.xml", 2⟩ 1).1.current_button = some 0 ∧
    ((addParameters (addParameters QParametersBox.init
        ⟨"p1.xml", 1⟩ 0).1 ⟨"p2.xml", 2⟩ 1).1.radio_buttons.map (·.checked))
      = [true, false] := by
  decide

/-- C7 (amended): after `addParameters`, the new entry becomes the
selected button (`current_button`, the checked radio) iff it is the
first entry — adding to a non-empty list changes no checked state and no
`current_button`, and publishes nothing — but `getCurrentParameters`
reports the newly added tree in every case, because
`current_parameters` is unconditionally overwritten by the add. -/
theorem addParameters_amended (box : QParametersBox) (ps : ParamsFile)
    (newId : Nat) :
    (getCurrentParameters (addParameters box ps newId).1 = some ps) ∧
    (box.radio_buttons = [] → box.current_button = none →
        (addParameters box ps newId).1.current_button = some newId ∧
        (addParameters box ps newId).2 = [BoxSignal.settingsToggled]) ∧
    (box.radio_buttons ≠ [] →
        (addParameters box ps newId).1.current_button = box.current_button ∧
        ((addParameters box ps newId).1.radio_buttons.map (·.checked))
          = box.radio_buttons.map (·.checked) ++ [false] ∧
        (addParameters box ps newId).2 = []) := by
  obtain ⟨cp, cb, rbs⟩ := box
  rcases rbs with _ | ⟨b, bs⟩
  · refine ⟨?_, ?_, fun h => absurd rfl h⟩
    · simp only [addParameters, clickButton, toggleParameters, checkOnly,
        uncheckAll, List.nil_append, List.map_nil, List.foldl_cons,
        List.foldl_nil, toggleStep, getCurrentParameters]
      split <;> first | rfl | (split <;> rfl)
    · intro _ hcb
      simp only at hcb
      subst hcb
      simp [addParameters, clickButton, toggleParameters, checkOnly,
        uncheckAll, toggleStep]
  · have h1 : addParameters ⟨cp, cb, b :: bs⟩ ps newId =
        ({ current_parameters := some ps
           current_button := cb
           radio_buttons := (b :: bs) ++
             [{ bid := newId, text := getFileName ps.parameters_file,
                checked := false, parameters := ps }] }, []) := by
      rw [addParameters]
      rw [if_neg (by simp [List.length_append])]
    refine ⟨by rw [h1]; rfl, fun h => absurd h (by simp),
      fun _ => ⟨by rw [h1], by rw [h1]; simp, by rw [h1]⟩⟩

/-- Witness for C7 (amended): adding to the empty box selects the new
button and publishes once; adding to the resulting one-entry box leaves
the selection alone and publishes nothing, while `getCurrentParameters`
reports the new tree. -/
theorem addParameters_amended_witness :
    (getCurrentParameters (addParameters QParametersBox.init
        ⟨"p1.xml", 1⟩ 0).1 = some ⟨"p1.xml", 1⟩ ∧
     (addParameters QParametersBox.init ⟨"p1.xml", 1⟩ 0).1.current_button = some 0 ∧
     (addParameters QParametersBox.init ⟨"p1.xml", 1⟩ 0).2
        = [BoxSignal.settingsToggled]) ∧
    (getCurrentParameters (addParameters (addParameters QParametersBox.init
        ⟨"p1.xml", 1⟩ 0).1 ⟨"p2.xml", 2⟩ 1).1 = some ⟨"p2.xml", 2⟩ ∧
     (addParameters (addParameters QParametersBox.init
        ⟨"p1.xml", 1⟩ 0).1 ⟨"p2.xml", 2⟩ 1).1.current_button
        = (addParameters QParametersBox.init ⟨"p1.xml", 1⟩ 0).1.current_button ∧
     (addParameters (addParameters QParametersBox.init
        ⟨"p1.xml", 1⟩ 0).1 ⟨"p2.xml", 2⟩ 1).2 = []) :=
  let hFirst := addParameters_amended QParametersBox.init ⟨"p1.xml", 1⟩ 0
  let hSecond := addParameters_amended (addParameters QParametersBox.init
    ⟨"p1.xml", 1⟩ 0).1 ⟨"p2.xml", 2⟩ 1
  ⟨⟨hFirst.1, (hFirst.2.1 rfl rfl).1, (hFirst.2.1 rfl rfl).2⟩,
   ⟨hSecond.1, (hSecond.2.2 (by decide)).1, (hSecond.2.2 (by decide)).2.2⟩⟩

/-- C10: for every identifier (name string or integer position) that
matches no selector entry — the index lookup yields −1 —
`setCurrentParameters` changes no state, publishes no notification and
returns `True`; and whenever the looked-up entry is already the current
button the call also returns `True`, so a `True` result does not
distinguish "already current" from "no such entry". -/
theorem setCurrentParameters_missing (box : QParametersBox)
    (q r : ParamIndex) (hq : getIndexOfParameters box q = -1) :
    setCurrentParameters box q = (box, ([], true)) ∧
    (∀ btn, box.radio_buttons.get? (getIndexOfParameters box r).toNat = some btn →
        some btn.bid = box.current_button →
        (setCurrentParameters box r).2.2 = true) := by
  constructor
  · rw [setCurrentParameters]
    simp [hq]
  · intro btn hbtn hcur
    rw [setCurrentParameters]
    by_cases hr : getIndexOfParameters box r = -1
    · simp [hr]
    · simp only [hr, ne_eq, not_false_iff, if_true, hbtn, if_pos hcur]

/-- Witness for C10 at the sample box: looking up the name `"zzz"`
(absent) returns `True` with no state change and no signal; looking up
`"p1"` (the current button) also returns `True`. -/
theorem setCurrentParameters_missing_witness :
    (setCurrentParameters sampleBox (.byName "zzz") = (sampleBox, ([], true))) ∧
    (setCurrentParameters sampleBox (.byName "p1")).2.2 = true :=
  let h := setCurrentParameters_missing sampleBox (.byName "zzz")
    (.byName "p1") (by decide)
  ⟨h.1, h.2 (sampleBox.radio_buttons.get ⟨0, by decide⟩) (by decide) (by decide)⟩

/-! ### Claims C8, C9 (MosaicView) -/

/-- C8, the drop handler evaluated at the failing input and at an
accepted input: a mixed-extension drop `["a.csv", "b.txt"]` takes the
reject branch — where the source calls `QtGui.QMessageBox.information`,
a name that does not exist under PyQt5 — and emits nothing, while a
uniform-extension drop `["b.csv", "a.csv"]` emits the sorted filename
list exactly once. -/
theorem dropEvent_mixed_extensions :
    dropEvent ["a.csv", "b.txt"] = some DropResult.rejected ∧
    dropEvent ["b.csv", "a.csv"]
      = some (DropResult.emitted ["a.csv", "b.csv"]) := by
  decide

/-- C9, the code evaluated at the failing input: a zoom-in wheel event
(angle delta `(0, 120)`) from the initial view multiplies the view scale
by `zoom_in` (to `6/5`) and republishes it, but leaves the crosshair's
scene size at 15 — which is not the base size divided by the current
scale — because the call `self.cross_hair.setScale(self.view_scale)` in
`wheelEvent` is commented out.  The visibility half of the claim does
hold: the crosshair paints nothing while hidden and paints the pen, the
two lines and the ellipse once shown. -/
theorem wheel_zoom_keeps_crosshair_size :
    (MosaicView.init.wheelEvent 0 120).1.view_scale = 6/5 ∧
    (MosaicView.init.wheelEvent 0 120).1.cross_hair.r_size = 15 ∧
    (MosaicView.init.wheelEvent 0 120).1.cross_hair.r_size ≠
      (MosaicView.init.wheelEvent 0 120).1.cross_hair.ch_size /
        (MosaicView.init.wheelEvent 0 120).1.view_scale ∧
    (MosaicView.init.wheelEvent 0 120).2 = [ViewSignal.scaleChange (6/5)] ∧
    Crosshair.paint MosaicView.init.cross_hair = [] ∧
    Crosshair.paint (MosaicView.init.cross_hair.setVisible true) ≠ [] := by
  refine ⟨?_, ?_, ?_, ?_, ?_, ?_⟩ <;>
    simp [MosaicView.wheelEvent, MosaicView.init, Crosshair.init,
      Crosshair.paint, Crosshair.setVisible] <;>
    norm_num

end StormControl
